import Mathlib

/-
  Shallow embedding of the library management system
  (src/library_management_system: models.py, library.py, exceptions.py,
  decorators.py).

  Modelling conventions:
  * Python `datetime.datetime` values live on an abstract linear timeline and
    are modelled as integers; `timedelta(days = d)` added to a datetime adds
    `d`.  `datetime.isoformat` / `datetime.fromisoformat` are mutually inverse
    and an ISO string is never empty, so a serialized `due_date` field is
    identified with the datetime value its ISO-8601 string encodes
    (`None` stays `none`).
  * `datetime.now()` is passed in explicitly (`now : DateTime`), and
    `datetime.now().year` (used by validation) as `cy : Int`.
  * Python `dict` is an insertion-ordered mapping, modelled as an association
    list; `d[k] = v` updates the first binding of `k` in place (keeping its
    position) or appends a fresh binding at the end.
  * Exceptions are modelled with `Except`; methods that mutate `self` in
    place return the post-call state as a second component, so the state
    after a raised exception is explicit.
  * Python `str.lower()` is per-character lowercasing, modelled with
    `Char.toLower`; `a in b` on strings is contiguous-substring containment.
-/

namespace LibSys

abbrev DateTime := Int

instance exceptDecEq {ε α : Type} [DecidableEq ε] [DecidableEq α] :
    DecidableEq (Except ε α) := fun x y =>
  match x, y with
  | .ok a, .ok b =>
      if h : a = b then isTrue (by rw [h]) else isFalse (by simp [h])
  | .error a, .error b =>
      if h : a = b then isTrue (by rw [h]) else isFalse (by simp [h])
  | .ok _, .error _ => isFalse (by simp)
  | .error _, .ok _ => isFalse (by simp)

/-- Error taxonomy of the program: the exception classes of exceptions.py
plus Python's built-in ValueError and RuntimeError as raised by the source. -/
inductive LibError where
  | valueError (msg : String)
  | runtimeError (msg : String)
  | bookNotFound (isbn : String)
  | memberNotFound (memberId : String)
  | bookNotAvailable (isbn : String)
  | borrowLimitExceeded (memberId : String) (limit : Int)
  | invalidData (msg : String)
deriving DecidableEq

/-- Decides whether `q` occurs at the start of `s` (Python `s.startswith(q)`,
used to define substring containment below). -/
def isPfx : List Char → List Char → Bool
  | [], _ => true
  | _ :: _, [] => false
  | a :: as, b :: bs => a == b && isPfx as bs

/-- Decides whether `q` occurs as a contiguous sublist of `s`
(Python `q in s` on strings, viewed on their character lists). -/
def hasSub : List Char → List Char → Bool
  | q, [] => q.isEmpty
  | q, a :: t => isPfx q (a :: t) || hasSub q t

/-- Python `s.lower()` on the character list of `s`. -/
def lowerChars (s : String) : List Char := s.toList.map Char.toLower

/-- The `Book` dataclass of models.py (field order and defaults as in the
source; the validated constructor is `Book.construct` below). -/
structure Book where
  isbn : String
  title : String
  author : String
  year : Int
  available : Bool
  borrowed_by : Option String
  due_date : Option DateTime
deriving DecidableEq

/-- Book.__post_init__: field validation run by the dataclass constructor.
`cy` is `datetime.datetime.now().year`.  Returns the validated instance. -/
def Book.validate (cy : Int) (b : Book) : Except String Book :=
  if b.isbn = "" ∨ b.isbn.length < 10 then
    .error "ISBN должен содержать не менее 10 символов."
  else if b.title = "" then
    .error "Название не может быть пустым."
  else if b.author = "" then
    .error "Автор не может быть пустым."
  else if ¬ (1000 ≤ b.year ∧ b.year ≤ cy) then
    .error ("Год должен быть между 1000 и " ++ toString cy ++ ".")
  else
    .ok b

/-- Calling `Book(isbn=…, title=…, author=…, year=…)` with the remaining
fields left at their defaults (`available=True`, `borrowed_by=None`,
`due_date=None`), including the `__post_init__` validation. -/
def Book.construct (cy : Int) (isbn title author : String) (year : Int) :
    Except String Book :=
  Book.validate cy ⟨isbn, title, author, year, true, none, none⟩

/-- Book.borrow: raises RuntimeError if the book is not available, else marks
it borrowed; `due_date = now + timedelta(days=days)`. -/
def Book.borrow (b : Book) (member_id : String) (days : Int) (now : DateTime) :
    Except String Book :=
  if b.available = false then
    .error "Книга уже выдана."
  else
    .ok { b with available := false, borrowed_by := some member_id,
                 due_date := some (now + days) }

/-- Book.return_book: raises RuntimeError if the book is available, else
clears the three borrow fields. -/
def Book.return_book (b : Book) : Except String Book :=
  if b.available = true then
    .error "Книга не была выдана."
  else
    .ok { b with available := true, borrowed_by := none, due_date := none }

/-- The dictionary produced by Book.to_dict: all seven fields, with
`due_date` rendered as an ISO-8601 string or `None` (identified here with
the encoded datetime value, see the header comment). -/
structure BookDict where
  isbn : String
  title : String
  author : String
  year : Int
  available : Bool
  borrowed_by : Option String
  due_date : Option DateTime
deriving DecidableEq

def Book.to_dict (b : Book) : BookDict :=
  ⟨b.isbn, b.title, b.author, b.year, b.available, b.borrowed_by, b.due_date⟩

/-- Book.from_dict: rebuilds a Book through the dataclass constructor (so
`__post_init__` validation runs again).  `fromisoformat(d["due_date"]) if
d.get("due_date") else None` is the identity on the modelled field: ISO
strings are never empty, so the truthiness test is exactly `isSome`. -/
def Book.from_dict (cy : Int) (d : BookDict) : Except String Book :=
  Book.validate cy
    ⟨d.isbn, d.title, d.author, d.year, d.available, d.borrowed_by, d.due_date⟩

/-- The `Member` dataclass of models.py. -/
structure Member where
  member_id : String
  name : String
  email : String
  borrowed_books : List String
  max_books : Int
deriving DecidableEq

/-- Member.__post_init__ validation. -/
def Member.validate (m : Member) : Except String Member :=
  if m.member_id = "" then
    .error "ID читателя не может быть пустым."
  else if m.name = "" then
    .error "Имя не может быть пустым."
  else if hasSub "@".toList m.email.toList = false then
    .error "Email должен содержать символ '@'."
  else
    .ok m

/-- Calling `Member(member_id=…, name=…, email=…)` with default
`borrowed_books=[]`, `max_books=3`. -/
def Member.construct (member_id name email : String) : Except String Member :=
  Member.validate ⟨member_id, name, email, [], 3⟩

/-- Member.can_borrow. -/
def Member.can_borrow (m : Member) : Bool :=
  (m.borrowed_books.length : Int) < m.max_books

/-- Member.add_borrowed_book: idempotent append. -/
def Member.add_borrowed_book (m : Member) (isbn : String) : Member :=
  if isbn ∈ m.borrowed_books then m
  else { m with borrowed_books := m.borrowed_books ++ [isbn] }

/-- Member.remove_borrowed_book: `list.remove` drops the first occurrence;
absent ISBN is a no-op. -/
def Member.remove_borrowed_book (m : Member) (isbn : String) : Member :=
  if isbn ∈ m.borrowed_books then
    { m with borrowed_books := m.borrowed_books.erase isbn }
  else m

/-- The dictionary produced by Member.to_dict. -/
structure MemberDict where
  member_id : String
  name : String
  email : String
  borrowed_books : List String
  max_books : Int
deriving DecidableEq

def Member.to_dict (m : Member) : MemberDict :=
  ⟨m.member_id, m.name, m.email, m.borrowed_books, m.max_books⟩

/-- Member.from_dict: rebuilds through the dataclass constructor. -/
def Member.from_dict (d : MemberDict) : Except String Member :=
  Member.validate ⟨d.member_id, d.name, d.email, d.borrowed_books, d.max_books⟩

/-- Python `d.get(k)` on an insertion-ordered mapping. -/
def dictGet {α : Type} : List (String × α) → String → Option α
  | [], _ => none
  | (k', v) :: t, k => if k' = k then some v else dictGet t k

/-- Python `k in d`. -/
def containsKey {α : Type} (l : List (String × α)) (k : String) : Bool :=
  (dictGet l k).isSome

/-- Python `d[k] = v`: update the binding of `k` in place (keeping its
position) or append a fresh binding at the end. -/
def dictSet {α : Type} : List (String × α) → String → α → List (String × α)
  | [], k, v => [(k, v)]
  | (k', v') :: t, k, v =>
      if k' = k then (k, v) :: t else (k', v') :: dictSet t k v

def dictKeys {α : Type} (l : List (String × α)) : List String :=
  l.map Prod.fst

/-- Python `d.values()` in iteration (insertion) order. -/
def dictValues {α : Type} (l : List (String × α)) : List α :=
  l.map Prod.snd

/-- A durable store file as the JSON layer sees it: absent, zero bytes,
a well-formed JSON array of entries, or text that fails to parse
(`json.JSONDecodeError` with the given message). -/
inductive FileContent (α : Type) where
  | missing
  | empty
  | wellFormed (entries : List α)
  | malformed (parseError : String)
deriving DecidableEq

/-- The Library object: its two in-memory mappings plus the two store
files (books.json, members.json) it reads and writes. -/
structure Library where
  books : List (String × Book)
  members : List (String × Member)
  booksFile : FileContent BookDict
  membersFile : FileContent MemberDict
deriving DecidableEq

/-- The dict comprehension of Library._load_data for books:
`{data["isbn"]: Book.from_dict(data) for data in books_data}`, with a
`ValueError` from `from_dict` propagating out of the comprehension. -/
def buildBooks (cy : Int) :
    List BookDict → List (String × Book) → Except String (List (String × Book))
  | [], acc => .ok acc
  | d :: rest, acc =>
      match Book.from_dict cy d with
      | .error e => .error e
      | .ok b => buildBooks cy rest (dictSet acc d.isbn b)

/-- The dict comprehension of Library._load_data for members. -/
def buildMembers :
    List MemberDict → List (String × Member) → Except String (List (String × Member))
  | [], acc => .ok acc
  | d :: rest, acc =>
      match Member.from_dict d with
      | .error e => .error e
      | .ok m => buildMembers rest (dictSet acc d.member_id m)

/-- Reading one store file in Library._load_data: a missing or zero-length
file yields `{}`; otherwise `json.load` either returns the entry list or
raises a parse error; entries go through the dict comprehension. -/
def loadBooksFile (cy : Int) : FileContent BookDict →
    Except String (List (String × Book))
  | .missing => .ok []
  | .empty => .ok []
  | .wellFormed ds => buildBooks cy ds []
  | .malformed e => .error e

def loadMembersFile : FileContent MemberDict →
    Except String (List (String × Member))
  | .missing => .ok []
  | .empty => .ok []
  | .wellFormed ds => buildMembers ds []
  | .malformed e => .error e

/-- Library._load_data: both files read under one `try`; any
`JSONDecodeError`/`KeyError`/`ValueError` is wrapped into
`InvalidDataError(f"Ошибка загрузки данных: {e}")`. -/
def load_data (cy : Int) (bf : FileContent BookDict)
    (mf : FileContent MemberDict) :
    Except LibError (List (String × Book) × List (String × Member)) :=
  match loadBooksFile cy bf with
  | .error e => .error (.invalidData ("Ошибка загрузки данных: " ++ e))
  | .ok bs =>
      match loadMembersFile mf with
      | .error e => .error (.invalidData ("Ошибка загрузки данных: " ++ e))
      | .ok ms => .ok (bs, ms)

/-- Library.save: overwrite both store files with the serialized mappings
(values in iteration order; indentation/encoding are not modelled). -/
def Library.save (lib : Library) : Library :=
  { lib with
      booksFile := .wellFormed ((dictValues lib.books).map Book.to_dict),
      membersFile := .wellFormed ((dictValues lib.members).map Member.to_dict) }

/-- The `validate_isbn` decorator: rejects an ISBN argument shorter than 10
characters with ValueError before the wrapped method runs (the
`isinstance(isbn, str)` test is always true in this typed model). -/
def isbnArgOk (isbn : String) : Bool :=
  ¬ isbn.length < 10

/-- The `require_member` decorator: rejects a falsy member_id argument. -/
def memberArgOk (member_id : String) : Bool :=
  member_id ≠ ""

/-- Library.get_book (wrapped in `validate_isbn`). -/
def Library.get_book (lib : Library) (isbn : String) : Except LibError Book :=
  if isbnArgOk isbn = false then
    .error (.valueError "ISBN должен содержать не менее 10 символов.")
  else
    match dictGet lib.books isbn with
    | none => .error (.bookNotFound isbn)
    | some b => .ok b

/-- Library.get_member. -/
def Library.get_member (lib : Library) (member_id : String) :
    Except LibError Member :=
  match dictGet lib.members member_id with
  | none => .error (.memberNotFound member_id)
  | some m => .ok m

/-- Library.add_book (wrapped in `log_operation` — semantically a no-op —
and `validate_isbn`).  Returns the created book and the post-call state. -/
def Library.add_book (lib : Library) (isbn title author : String)
    (year cy : Int) : Except LibError Book × Library :=
  if isbnArgOk isbn = false then
    (.error (.valueError "ISBN должен содержать не менее 10 символов."), lib)
  else if containsKey lib.books isbn then
    (.error (.valueError ("Книга с ISBN " ++ isbn ++ " уже существует.")), lib)
  else
    match Book.construct cy isbn title author year with
    | .error e => (.error (.valueError e), lib)
    | .ok b => (.ok b, { lib with books := dictSet lib.books isbn b })

/-- Library.borrow_book (wrapped in `log_operation`, `validate_isbn`,
`require_member`): look up both entities, check availability and the
borrow limit, then transition the book and the member together. -/
def Library.borrow_book (lib : Library) (isbn member_id : String)
    (days : Int) (now : DateTime) : Except LibError Unit × Library :=
  if isbnArgOk isbn = false then
    (.error (.valueError "ISBN должен содержать не менее 10 символов."), lib)
  else if memberArgOk member_id = false then
    (.error (.valueError "member_id is required"), lib)
  else
    match dictGet lib.books isbn with
    | none => (.error (.bookNotFound isbn), lib)
    | some book =>
        match dictGet lib.members member_id with
        | none => (.error (.memberNotFound member_id), lib)
        | some member =>
            if book.available = false then
              (.error (.bookNotAvailable isbn), lib)
            else if member.can_borrow = false then
              (.error (.borrowLimitExceeded member_id member.max_books), lib)
            else
              match book.borrow member_id days now with
              | .error e => (.error (.runtimeError e), lib)
              | .ok book2 =>
                  (.ok (),
                   { lib with
                       books := dictSet lib.books isbn book2,
                       members := dictSet lib.members member_id
                         (member.add_borrowed_book isbn) })

/-- Library.return_book (wrapped in `log_operation`, `validate_isbn`,
`require_member`): mismatch check, then the book transition and the
member update. -/
def Library.return_book (lib : Library) (isbn member_id : String) :
    Except LibError Unit × Library :=
  if isbnArgOk isbn = false then
    (.error (.valueError "ISBN должен содержать не менее 10 символов."), lib)
  else if memberArgOk member_id = false then
    (.error (.valueError "member_id is required"), lib)
  else
    match dictGet lib.books isbn with
    | none => (.error (.bookNotFound isbn), lib)
    | some book =>
        match dictGet lib.members member_id with
        | none => (.error (.memberNotFound member_id), lib)
        | some member =>
            if book.borrowed_by ≠ some member_id then
              (.error (.valueError ("Книга с ISBN " ++ isbn ++
                " не была выдана читателю " ++ member_id ++ ".")), lib)
            else
              match book.return_book with
              | .error e => (.error (.runtimeError e), lib)
              | .ok book2 =>
                  (.ok (),
                   { lib with
                       books := dictSet lib.books isbn book2,
                       members := dictSet lib.members member_id
                         (member.remove_borrowed_book isbn) })

/-- The match predicate of Library.search_books. -/
def bookMatches (query : String) (b : Book) : Bool :=
  hasSub (lowerChars query) (lowerChars b.title) ||
  hasSub (lowerChars query) (lowerChars b.author)

/-- Library.search_books: list comprehension over `self.books.values()`. -/
def Library.search_books (lib : Library) (query : String) : List Book :=
  (dictValues lib.books).filter (bookMatches query)

/-- Library.transaction: snapshot both mappings (deep copy — later in-place
mutation of the live state cannot affect a pure snapshot), run the body,
commit with `save()` on normal exit, else restore the snapshot and
re-raise.  A body is any batch of catalog operations: it returns the
outcome and the post-body state of the object. -/
def Library.transaction (lib : Library)
    (body : Library → Except LibError Unit × Library) :
    Except LibError Unit × Library :=
  let books_backup := lib.books
  let members_backup := lib.members
  match body lib with
  | (.ok _, lib2) => (.ok (), lib2.save)
  | (.error e, lib2) =>
      (.error e, { lib2 with books := books_backup, members := members_backup })

/-- The book borrow-state invariant of the data model: `available == false`
iff both `borrowed_by` and `due_date` are present, and `available == true`
iff both are absent. -/
@[reducible] def bookInv (b : Book) : Prop :=
  (b.available = false ↔ b.borrowed_by.isSome ∧ b.due_date.isSome) ∧
  (b.available = true ↔ b.borrowed_by = none ∧ b.due_date = none)

/-- A book whose fields pass `__post_init__` validation for current year
`cy` (what "constructed from valid fields" means). -/
@[reducible] def validBook (cy : Int) (b : Book) : Prop :=
  Book.validate cy b = .ok b

/-- A member whose fields pass `__post_init__` validation. -/
@[reducible] def validMember (m : Member) : Prop :=
  Member.validate m = .ok m

/-- The books the public interface can produce: validated 4-argument
construction, deserialization of a stored record (a record serialized from
a produced book), and the borrow / return transitions. -/
inductive ProducedBook (cy : Int) : Book → Prop where
  | constructed (isbn title author : String) (year : Int) (b : Book) :
      Book.construct cy isbn title author year = .ok b → ProducedBook cy b
  | loaded (b b' : Book) : ProducedBook cy b →
      Book.from_dict cy (Book.to_dict b) = .ok b' → ProducedBook cy b'
  | borrowed (b : Book) (mid : String) (days : Int) (now : DateTime)
      (b' : Book) : ProducedBook cy b →
      Book.borrow b mid days now = .ok b' → ProducedBook cy b'
  | returned (b b' : Book) : ProducedBook cy b →
      Book.return_book b = .ok b' → ProducedBook cy b'

/-- Cross-entity consistency of a catalog state: distinct book keys, each
book stored under its own ISBN, and every unavailable book's `borrowed_by`
names an existing member whose `borrowed_books` contains that ISBN. -/
def Consistent (lib : Library) : Prop :=
  (dictKeys lib.books).Nodup ∧
  (∀ p ∈ lib.books, (Prod.snd p).isbn = Prod.fst p) ∧
  (∀ p ∈ lib.books, (Prod.snd p).available = false →
    ∃ mid m, (Prod.snd p).borrowed_by = some mid ∧
      dictGet lib.members mid = some m ∧
      (Prod.snd p).isbn ∈ m.borrowed_books)

/-- A catalog whose two mappings hold validated entities stored under their
own keys, with distinct keys — what the interface maintains and what a
fresh reload of a saved state needs. -/
@[reducible] def GoodCatalog (cy : Int) (lib : Library) : Prop :=
  (dictKeys lib.books).Nodup ∧
  (dictKeys lib.members).Nodup ∧
  (∀ p ∈ lib.books,
    (Prod.snd p).isbn = Prod.fst p ∧ validBook cy (Prod.snd p)) ∧
  (∀ p ∈ lib.members,
    (Prod.snd p).member_id = Prod.fst p ∧ validMember (Prod.snd p))

/-- Fixture: an available book with valid fields. -/
def bk0 : Book :=
  ⟨"1234567890", "Effective Python", "Brett Slatkin", 2015, true, none, none⟩

/-- Fixture: the same book in the borrowed state. -/
def bk1 : Book :=
  ⟨"1234567890", "Effective Python", "Brett Slatkin", 2015, false,
   some "m1", some 5⟩

/-- Fixture: a member with no borrowed books. -/
def mem0 : Member :=
  ⟨"m1", "Alice", "alice@example.com", [], 3⟩

/-- Fixture: the same member holding bk1. -/
def mem1 : Member :=
  ⟨"m1", "Alice", "alice@example.com", ["1234567890"], 3⟩

/-- Fixture: a catalog with one available book and one member. -/
def lib0 : Library :=
  ⟨[("1234567890", bk0)], [("m1", mem0)], .missing, .missing⟩

/-- Fixture: a catalog where bk1 is borrowed by mem1. -/
def lib1 : Library :=
  ⟨[("1234567890", bk1)], [("m1", mem1)], .missing, .missing⟩

/-- Fixture: a transaction body that adds two books and exits normally. -/
def addTwoBody (l : Library) : Except LibError Unit × Library :=
  let r1 := l.add_book "0987654321" "Fluent Python" "Luciano Ramalho" 2015 2020
  let r2 := (Prod.snd r1).add_book "1111111111" "Dune" "Frank Herbert" 1965 2020
  (.ok (), Prod.snd r2)

/-- Fixture: the catalog state addTwoBody leaves behind from lib0. -/
def addTwoResult : Library :=
  Prod.snd (addTwoBody lib0)

theorem dictGet_dictSet_self {α : Type} (l : List (String × α)) (k : String)
    (v : α) : dictGet (dictSet l k v) k = some v := by
  induction l with
  | nil => simp [dictSet, dictGet]
  | cons p t ih =>
      obtain ⟨k', v'⟩ := p
      by_cases h : k' = k <;> simp [dictSet, dictGet, h, ih]

theorem dictGet_dictSet_ne {α : Type} (l : List (String × α)) {k k' : String}
    (v : α) (hne : k' ≠ k) :
    dictGet (dictSet l k v) k' = dictGet l k' := by
  have hkk : ¬ k = k' := fun h => hne h.symm
  induction l with
  | nil => simp [dictSet, dictGet, hkk]
  | cons p t ih =>
      obtain ⟨a, w⟩ := p
      by_cases h : a = k
      · subst h
        simp [dictSet, dictGet, hkk]
      · by_cases h2 : a = k'
        · simp [dictSet, dictGet, h, h2, hne]
        · simp [dictSet, dictGet, h, h2, ih]

theorem dictKeys_dictSet_of_mem {α : Type} {l : List (String × α)}
    {k : String} (v : α) (h : containsKey l k = true) :
    dictKeys (dictSet l k v) = dictKeys l := by
  induction l with
  | nil => simp [containsKey, dictGet] at h
  | cons p t ih =>
      obtain ⟨a, w⟩ := p
      by_cases hk : a = k
      · subst hk
        simp [dictSet, dictKeys]
      · have ht : containsKey t k = true := by
          simpa [containsKey, dictGet, hk] using h
        simp [dictSet, dictKeys, hk]
        simpa [dictKeys] using ih ht

theorem dictGet_mem {α : Type} {l : List (String × α)} {k : String} {v : α}
    (h : dictGet l k = some v) : (k, v) ∈ l := by
  induction l with
  | nil => simp [dictGet] at h
  | cons p t ih =>
      obtain ⟨a, w⟩ := p
      by_cases hk : a = k
      · subst hk
        simp [dictGet] at h
        simp [h]
      · simp [dictGet, hk] at h
        exact List.mem_cons_of_mem _ (ih h)

theorem mem_dictSet_cases {α : Type} {l : List (String × α)} {k : String}
    {v : α} (hnd : (dictKeys l).Nodup) :
    ∀ p ∈ dictSet l k v, p = (k, v) ∨ (p ∈ l ∧ Prod.fst p ≠ k) := by
  induction l with
  | nil =>
      intro p hp
      simp [dictSet] at hp
      exact Or.inl hp
  | cons q t ih =>
      obtain ⟨a, w⟩ := q
      have hnd2 : a ∉ List.map Prod.fst t ∧ (List.map Prod.fst t).Nodup := by
        simpa [dictKeys, List.nodup_cons] using hnd
      have hnd' : (dictKeys t).Nodup := hnd2.2
      intro p hp
      by_cases hk : a = k
      · subst hk
        simp [dictSet] at hp
        rcases hp with hp | hp
        · exact Or.inl (by simp [hp])
        · refine Or.inr ⟨List.mem_cons_of_mem _ hp, ?_⟩
          have hmem : Prod.fst p ∈ List.map Prod.fst t :=
            List.mem_map_of_mem Prod.fst hp
          intro hEq
          exact hnd2.1 (hEq ▸ hmem)
      · simp [dictSet, hk] at hp
        rcases hp with hp | hp
        · exact Or.inr ⟨by simp [hp], by simp [hp, hk]⟩
        · rcases ih hnd' p hp with h | ⟨h1, h2⟩
          · exact Or.inl h
          · exact Or.inr ⟨List.mem_cons_of_mem _ h1, h2⟩

theorem mem_add_borrowed_book_self (m : Member) (isbn : String) :
    isbn ∈ (m.add_borrowed_book isbn).borrowed_books := by
  unfold Member.add_borrowed_book
  split
  · assumption
  · simp

theorem mem_add_borrowed_book_mono {m : Member} {isbn x : String}
    (h : x ∈ m.borrowed_books) :
    x ∈ (m.add_borrowed_book isbn).borrowed_books := by
  unfold Member.add_borrowed_book
  split
  · exact h
  · simp [h]

theorem mem_remove_borrowed_book {m : Member} {isbn x : String}
    (hne : x ≠ isbn) (h : x ∈ m.borrowed_books) :
    x ∈ (m.remove_borrowed_book isbn).borrowed_books := by
  unfold Member.remove_borrowed_book
  split
  · simpa [List.mem_erase_of_ne hne] using h
  · exact h

theorem book_validate_ok_eq {cy : Int} {b b' : Book}
    (h : Book.validate cy b = .ok b') : b' = b := by
  unfold Book.validate at h
  split_ifs at h <;> simp_all

theorem member_validate_ok_eq {m m' : Member}
    (h : Member.validate m = .ok m') : m' = m := by
  unfold Member.validate at h
  split_ifs at h <;> simp_all

theorem book_roundtrip_aux {cy : Int} {b : Book} (h : validBook cy b) :
    Book.from_dict cy (Book.to_dict b) = .ok b := by
  cases b
  exact h

theorem member_roundtrip_aux {m : Member} (h : validMember m) :
    Member.from_dict (Member.to_dict m) = .ok m := by
  cases m
  exact h

/-- Claim C3: for every Book with valid fields (in any borrow state) and
every valid Member (including a non-empty ordered borrowed list),
serializing to a dict and deserializing yields an equal entity, borrow
state and due-date timestamp included. -/
theorem serialize_round_trip (cy : Int) (b : Book) (m : Member)
    (hb : validBook cy b) (hm : validMember m) :
    Book.from_dict cy (Book.to_dict b) = .ok b ∧
    Member.from_dict (Member.to_dict m) = .ok m :=
  ⟨book_roundtrip_aux hb, member_roundtrip_aux hm⟩

/-- Witness for C3 at a borrowed book and a member holding one ISBN. -/
theorem serialize_round_trip_witness :
    validBook 2020 bk1 ∧ validMember mem1 ∧
    Book.from_dict 2020 (Book.to_dict bk1) = .ok bk1 ∧
    Member.from_dict (Member.to_dict mem1) = .ok mem1 :=
  ⟨by decide, by decide,
   (serialize_round_trip 2020 bk1 mem1 (by decide) (by decide)).1,
   (serialize_round_trip 2020 bk1 mem1 (by decide) (by decide)).2⟩

/-- Claim C7: borrow then return restores the available state with both
borrow fields cleared, regardless of the days argument. -/
theorem borrow_then_return_restores (b : Book) (mid : String) (days : Int)
    (now : DateTime) (h : b.available = true) :
    ∃ b1, Book.borrow b mid days now = .ok b1 ∧
      Book.return_book b1 =
        .ok { b with available := true, borrowed_by := none,
                     due_date := none } := by
  refine ⟨({ b with available := false, borrowed_by := some mid,
                    due_date := some (now + days) }), ?_, ?_⟩
  · simp [Book.borrow, h]
  · simp [Book.return_book]

/-- Witness for C7 at the available fixture book. -/
theorem borrow_then_return_restores_witness :
    bk0.available = true ∧
    ∃ b1, Book.borrow bk0 "m1" 14 0 = .ok b1 ∧
      Book.return_book b1 =
        .ok { bk0 with available := true, borrowed_by := none,
                       due_date := none } :=
  ⟨by decide, borrow_then_return_restores bk0 "m1" 14 0 (by decide)⟩

/-- Claim C6: load() treats a missing or zero-length store file as an empty
collection, and fails with CorruptData (InvalidDataError) carrying the
underlying parse error when a store file's content is malformed. -/
theorem load_missing_empty_malformed (cy : Int) :
    (load_data cy .missing .missing = .ok ([], [])) ∧
    (load_data cy .empty .empty = .ok ([], [])) ∧
    (load_data cy .missing .empty = .ok ([], [])) ∧
    (load_data cy .empty .missing = .ok ([], [])) ∧
    (∀ e mf, load_data cy (.malformed e) mf =
      .error (.invalidData ("Ошибка загрузки данных: " ++ e))) ∧
    (∀ e, load_data cy .missing (.malformed e) =
      .error (.invalidData ("Ошибка загрузки данных: " ++ e))) ∧
    (∀ e, load_data cy .empty (.malformed e) =
      .error (.invalidData ("Ошибка загрузки данных: " ++ e))) :=
  ⟨rfl, rfl, rfl, rfl, fun _ _ => rfl, fun _ => rfl, fun _ => rfl⟩

/-- Claim C1: if the body of a transaction scope raises, the two in-memory
mappings are restored to their values at transaction begin and the original
error is re-raised unchanged (the store files keep whatever the body left). -/
theorem transaction_rollback (lib : Library)
    (body : Library → Except LibError Unit × Library) (e : LibError)
    (lib2 : Library) (h : body lib = (.error e, lib2)) :
    lib.transaction body =
      (.error e, { lib2 with books := lib.books, members := lib.members }) := by
  unfold Library.transaction
  rw [h]

/-- Witness for C1 with a body that raises after mutating nothing. -/
theorem transaction_rollback_witness :
    lib0.transaction (fun l => (.error (.valueError "boom"), l)) =
      (.error (.valueError "boom"),
       { lib0 with books := lib0.books, members := lib0.members }) :=
  transaction_rollback lib0 _ _ _ rfl

/-- Claim C4: every book the public interface produces — validated
construction, deserialization of a stored record, borrow, return —
satisfies the availability invariant. -/
theorem produced_book_invariant (cy : Int) (b : Book)
    (h : ProducedBook cy b) : bookInv b := by
  induction h with
  | constructed isbn title author year b hc =>
      have hb := book_validate_ok_eq hc
      subst hb
      exact ⟨by simp, by simp⟩
  | loaded b b' hp hrt ih =>
      have hb : b' = b := book_validate_ok_eq hrt
      subst hb
      exact ih
  | borrowed b mid days now b' hp hbr ih =>
      cases hA : b.available with
      | false => simp [Book.borrow, hA] at hbr
      | true =>
          simp [Book.borrow, hA] at hbr
          subst hbr
          exact ⟨by simp, by simp⟩
  | returned b b' hp hrt ih =>
      cases hA : b.available with
      | true => simp [Book.return_book, hA] at hrt
      | false =>
          simp [Book.return_book, hA] at hrt
          subst hrt
          exact ⟨by simp, by simp⟩

/-- Witness for C4 at a freshly constructed book. -/
theorem produced_book_invariant_witness : bookInv bk0 :=
  produced_book_invariant 2020 bk0
    (ProducedBook.constructed "1234567890" "Effective Python"
      "Brett Slatkin" 2015 bk0 (by decide))

/-- Claim C2: borrow_book propagates NotFound when either entity is absent,
fails with Unavailable(isbn) on a non-available book and with
LimitExceeded(member_id, limit) at capacity; otherwise it marks the book
borrowed and adds the ISBN to the member's set in one step.  Every error
case returns the catalog state unchanged: the two mutations apply together
or not at all. -/
theorem borrow_book_cases (lib : Library) (isbn member_id : String)
    (days : Int) (now : DateTime) (hpos : 0 < days)
    (hisbn : 10 ≤ isbn.length) (hmid : member_id ≠ "") :
    (dictGet lib.books isbn = none →
      lib.borrow_book isbn member_id days now =
        (.error (.bookNotFound isbn), lib)) ∧
    (∀ b, dictGet lib.books isbn = some b →
      dictGet lib.members member_id = none →
      lib.borrow_book isbn member_id days now =
        (.error (.memberNotFound member_id), lib)) ∧
    (∀ b m, dictGet lib.books isbn = some b →
      dictGet lib.members member_id = some m →
      b.available = false →
      lib.borrow_book isbn member_id days now =
        (.error (.bookNotAvailable isbn), lib)) ∧
    (∀ b m, dictGet lib.books isbn = some b →
      dictGet lib.members member_id = some m →
      b.available = true → m.can_borrow = false →
      lib.borrow_book isbn member_id days now =
        (.error (.borrowLimitExceeded member_id m.max_books), lib)) ∧
    (∀ b m, dictGet lib.books isbn = some b →
      dictGet lib.members member_id = some m →
      b.available = true → m.can_borrow = true →
      lib.borrow_book isbn member_id days now =
        (.ok (),
         { lib with
             books := dictSet lib.books isbn
               ({ b with available := false, borrowed_by := some member_id,
                         due_date := some (now + days) })
             members := dictSet lib.members member_id
               (m.add_borrowed_book isbn) })) := by
  have h1 : isbnArgOk isbn = true := by
    simp [isbnArgOk]
    omega
  have h2 : memberArgOk member_id = true := by
    simpa [memberArgOk] using hmid
  refine ⟨?_, ?_, ?_, ?_, ?_⟩
  · intro hb
    simp [Library.borrow_book, h1, h2, hb]
  · intro b hb hm
    simp [Library.borrow_book, h1, h2, hb, hm]
  · intro b m hb hm hav
    simp [Library.borrow_book, h1, h2, hb, hm, hav]
  · intro b m hb hm hav hcb
    simp [Library.borrow_book, h1, h2, hb, hm, hav, hcb]
  · intro b m hb hm hav hcb
    simp [Library.borrow_book, h1, h2, hb, hm, hav, hcb, Book.borrow]

/-- Witness for C2: the success case at the fixture catalog. -/
theorem borrow_book_cases_witness :
    lib0.borrow_book "1234567890" "m1" 14 0 =
      (.ok (),
       { lib0 with
           books := dictSet lib0.books "1234567890"
             ({ bk0 with available := false, borrowed_by := some "m1",
                         due_date := some (0 + 14) })
           members := dictSet lib0.members "m1"
             (mem0.add_borrowed_book "1234567890") }) :=
  (borrow_book_cases lib0 "1234567890" "m1" 14 0 (by decide) (by decide)
    (by decide)).2.2.2.2 bk0 mem0 (by decide) (by decide) (by decide)
    (by decide)

/-- Claim C8: Book.return_book on an available book raises IllegalState
(RuntimeError); through the catalog, return_book fails with the mismatch
ValueError whenever `book.borrowed_by != member_id`, and otherwise
transitions the book to available and removes the ISBN from the member's
borrowed set. -/
theorem return_book_cases (lib : Library) (isbn member_id : String)
    (b : Book) (m : Member)
    (hisbn : 10 ≤ isbn.length) (hmid : member_id ≠ "")
    (hb : dictGet lib.books isbn = some b)
    (hm : dictGet lib.members member_id = some m) :
    (∀ b' : Book, b'.available = true →
      Book.return_book b' = .error "Книга не была выдана.") ∧
    (b.borrowed_by ≠ some member_id →
      lib.return_book isbn member_id =
        (.error (.valueError ("Книга с ISBN " ++ isbn ++
          " не была выдана читателю " ++ member_id ++ ".")), lib)) ∧
    (b.borrowed_by = some member_id → bookInv b →
      lib.return_book isbn member_id =
        (.ok (),
         { lib with
             books := dictSet lib.books isbn
               ({ b with available := true, borrowed_by := none,
                         due_date := none })
             members := dictSet lib.members member_id
               (m.remove_borrowed_book isbn) })) := by
  have h1 : isbnArgOk isbn = true := by
    simp [isbnArgOk]
    omega
  have h2 : memberArgOk member_id = true := by
    simpa [memberArgOk] using hmid
  refine ⟨?_, ?_, ?_⟩
  · intro b' hav
    simp [Book.return_book, hav]
  · intro hne
    simp [Library.return_book, h1, h2, hb, hm, hne]
  · intro heq hinv
    have hav : b.available = false := by
      cases hA : b.available with
      | false => rfl
      | true =>
          have := (hinv.2).mp hA
          rw [this.1] at heq
          cases heq
    simp [Library.return_book, h1, h2, hb, hm, heq, Book.return_book, hav]

/-- Witness for C8: successful return at the borrowed fixture catalog. -/
theorem return_book_cases_witness :
    lib1.return_book "1234567890" "m1" =
      (.ok (),
       { lib1 with
           books := dictSet lib1.books "1234567890"
             ({ bk1 with available := true, borrowed_by := none,
                         due_date := none })
           members := dictSet lib1.members "m1"
             (mem1.remove_borrowed_book "1234567890") }) :=
  (return_book_cases lib1 "1234567890" "m1" bk1 mem1 (by decide)
    (by decide) (by decide) (by decide)).2.2 (by decide) (by decide)

theorem isPfx_iff (q s : List Char) :
    isPfx q s = true ↔ ∃ r, s = q ++ r := by
  induction q generalizing s with
  | nil => simp [isPfx]
  | cons a as ih =>
      cases s with
      | nil => simp [isPfx]
      | cons b bs =>
          simp only [isPfx, Bool.and_eq_true, beq_iff_eq, ih,
            List.cons_append, List.cons_eq_cons]
          constructor
          · rintro ⟨hab, r, hr⟩
            exact ⟨r, hab.symm, hr⟩
          · rintro ⟨r, hba, hr⟩
            exact ⟨hba.symm, r, hr⟩

theorem hasSub_iff (q s : List Char) :
    hasSub q s = true ↔ ∃ l r, s = l ++ q ++ r := by
  induction s with
  | nil =>
      simp [hasSub, List.isEmpty_iff]
  | cons a t ih =>
      simp only [hasSub, Bool.or_eq_true, isPfx_iff, ih]
      constructor
      · rintro (⟨r, hr⟩ | ⟨l, r, hr⟩)
        · exact ⟨[], r, by simp [hr]⟩
        · exact ⟨a :: l, r, by simp [hr]⟩
      · rintro ⟨l, r, hr⟩
        cases l with
        | nil => exact Or.inl ⟨r, by simpa using hr⟩
        | cons x xs =>
            simp only [List.cons_append, List.cons_eq_cons] at hr
            exact Or.inr ⟨xs, r, hr.2⟩

/-- Claim C9: search(query) returns exactly the books whose title or author
contains the query as a case-insensitive contiguous substring, in the
mapping's insertion order (a sublist of the values in iteration order). -/
theorem search_books_spec (lib : Library) (query : String) :
    (∀ b, b ∈ lib.search_books query ↔
      (b ∈ dictValues lib.books ∧
        ((∃ l r, lowerChars b.title = l ++ lowerChars query ++ r) ∨
         (∃ l r, lowerChars b.author = l ++ lowerChars query ++ r)))) ∧
    List.Sublist (lib.search_books query) (dictValues lib.books) := by
  constructor
  · intro b
    simp [Library.search_books, List.mem_filter, bookMatches,
      Bool.or_eq_true, hasSub_iff]
  · exact List.filter_sublist _

theorem consistent_after_borrow (lib : Library) (b : Book) (m : Member)
    (isbn member_id : String) (days : Int) (now : DateTime)
    (h : Consistent lib)
    (hb : dictGet lib.books isbn = some b)
    (hm : dictGet lib.members member_id = some m) :
    Consistent { lib with
      books := dictSet lib.books isbn
        ({ b with available := false, borrowed_by := some member_id,
                  due_date := some (now + days) })
      members := dictSet lib.members member_id
        (m.add_borrowed_book isbn) } := by
  obtain ⟨hnd, hkey, hlink⟩ := h
  have hbisbn : b.isbn = isbn := hkey _ (dictGet_mem hb)
  refine ⟨?_, ?_, ?_⟩
  · rw [dictKeys_dictSet_of_mem _ (by simp [containsKey, hb])]
    exact hnd
  · intro p hp
    rcases mem_dictSet_cases hnd p hp with rfl | ⟨hpl, hpne⟩
    · simpa using hbisbn
    · exact hkey p hpl
  · intro p hp hav
    rcases mem_dictSet_cases hnd p hp with rfl | ⟨hpl, hpne⟩
    · refine ⟨member_id, m.add_borrowed_book isbn, rfl, ?_, ?_⟩
      · simpa using dictGet_dictSet_self lib.members member_id _
      · simpa [hbisbn] using mem_add_borrowed_book_self m isbn
    · obtain ⟨mid, m2, hbor, hget2, hmem2⟩ := hlink p hpl hav
      by_cases hmid : mid = member_id
      · subst hmid
        have hm2 : m2 = m := by
          rw [hm] at hget2
          cases hget2
          rfl
        subst hm2
        refine ⟨mid, m2.add_borrowed_book isbn, hbor, ?_, ?_⟩
        · simpa using dictGet_dictSet_self lib.members mid _
        · exact mem_add_borrowed_book_mono hmem2
      · refine ⟨mid, m2, hbor, ?_, hmem2⟩
        rw [dictGet_dictSet_ne _ _ hmid]
        exact hget2

theorem consistent_after_return (lib : Library) (b : Book) (m : Member)
    (isbn member_id : String)
    (h : Consistent lib)
    (hb : dictGet lib.books isbn = some b)
    (hm : dictGet lib.members member_id = some m) :
    Consistent { lib with
      books := dictSet lib.books isbn
        ({ b with available := true, borrowed_by := none, due_date := none })
      members := dictSet lib.members member_id
        (m.remove_borrowed_book isbn) } := by
  obtain ⟨hnd, hkey, hlink⟩ := h
  have hbisbn : b.isbn = isbn := hkey _ (dictGet_mem hb)
  refine ⟨?_, ?_, ?_⟩
  · rw [dictKeys_dictSet_of_mem _ (by simp [containsKey, hb])]
    exact hnd
  · intro p hp
    rcases mem_dictSet_cases hnd p hp with rfl | ⟨hpl, hpne⟩
    · simpa using hbisbn
    · exact hkey p hpl
  · intro p hp hav
    rcases mem_dictSet_cases hnd p hp with rfl | ⟨hpl, hpne⟩
    · simp at hav
    · obtain ⟨mid, m2, hbor, hget2, hmem2⟩ := hlink p hpl hav
      have hisbnne : (Prod.snd p).isbn ≠ isbn := by
        rw [hkey p hpl]
        exact hpne
      by_cases hmid : mid = member_id
      · subst hmid
        have hm2 : m2 = m := by
          rw [hm] at hget2
          cases hget2
          rfl
        subst hm2
        refine ⟨mid, m2.remove_borrowed_book isbn, hbor, ?_, ?_⟩
        · simpa using dictGet_dictSet_self lib.members mid _
        · exact mem_remove_borrowed_book hisbnne hmem2
      · refine ⟨mid, m2, hbor, ?_, hmem2⟩
        rw [dictGet_dictSet_ne _ _ hmid]
        exact hget2

/-- Claim C10: starting from a consistent catalog state (books keyed by
their own ISBN with distinct keys, every unavailable book's borrowed_by
naming an existing member whose borrowed set holds that ISBN), every
successful or failed borrow_book and return_book call preserves
consistency. -/
theorem consistency_preserved (lib : Library) (isbn member_id : String)
    (days : Int) (now : DateTime) (h : Consistent lib) :
    Consistent (lib.borrow_book isbn member_id days now).2 ∧
    Consistent (lib.return_book isbn member_id).2 := by
  constructor
  · unfold Library.borrow_book
    cases hA : isbnArgOk isbn with
    | false => simpa [hA] using h
    | true =>
        cases hB : memberArgOk member_id with
        | false => simpa [hA, hB] using h
        | true =>
            cases hb : dictGet lib.books isbn with
            | none => simpa [hA, hB, hb] using h
            | some b =>
                cases hm : dictGet lib.members member_id with
                | none => simpa [hA, hB, hb, hm] using h
                | some m =>
                    cases hav : b.available with
                    | false => simpa [hA, hB, hb, hm, hav] using h
                    | true =>
                        cases hcb : m.can_borrow with
                        | false => simpa [hA, hB, hb, hm, hav, hcb] using h
                        | true =>
                            simpa [hA, hB, hb, hm, hav, hcb, Book.borrow]
                              using consistent_after_borrow lib b m isbn
                                member_id days now h hb hm
  · unfold Library.return_book
    cases hA : isbnArgOk isbn with
    | false => simpa [hA] using h
    | true =>
        cases hB : memberArgOk member_id with
        | false => simpa [hA, hB] using h
        | true =>
            cases hb : dictGet lib.books isbn with
            | none => simpa [hA, hB, hb] using h
            | some b =>
                cases hm : dictGet lib.members member_id with
                | none => simpa [hA, hB, hb, hm] using h
                | some m =>
                    by_cases hne : b.borrowed_by = some member_id
                    · cases hav : b.available with
                      | true =>
                          simpa [hA, hB, hb, hm, hne, Book.return_book, hav]
                            using h
                      | false =>
                          simpa [hA, hB, hb, hm, hne, Book.return_book, hav]
                            using consistent_after_return lib b m isbn
                              member_id h hb hm
                    · simpa [hA, hB, hb, hm, hne] using h

theorem dictGet_eq_none_of_not_mem {α : Type} {l : List (String × α)}
    {k : String} (h : k ∉ dictKeys l) : dictGet l k = none := by
  induction l with
  | nil => rfl
  | cons p t ih =>
      obtain ⟨a, w⟩ := p
      have h1 : ¬ a = k := fun he => h (by
        rw [← he]
        exact List.mem_cons_self a _)
      have h2 : k ∉ dictKeys t := fun hm => h (List.mem_cons_of_mem a hm)
      simp [dictGet, h1, ih h2]

theorem dictSet_append {α : Type} {l : List (String × α)} {k : String}
    (v : α) (h : dictGet l k = none) : dictSet l k v = l ++ [(k, v)] := by
  induction l with
  | nil => rfl
  | cons p t ih =>
      obtain ⟨a, w⟩ := p
      by_cases ha : a = k
      · simp [dictGet, ha] at h
      · simp [dictGet, ha] at h
        simp [dictSet, ha, ih h]

theorem buildBooks_roundtrip (cy : Int) (l : List (String × Book)) :
    ∀ acc : List (String × Book),
    (dictKeys acc ++ dictKeys l).Nodup →
    (∀ p ∈ l, (Prod.snd p).isbn = Prod.fst p ∧ validBook cy (Prod.snd p)) →
    buildBooks cy ((dictValues l).map Book.to_dict) acc = .ok (acc ++ l) := by
  induction l with
  | nil =>
      intro acc hnd hgood
      simp [dictValues, buildBooks]
  | cons p t ih =>
      intro acc hnd hgood
      obtain ⟨k, b⟩ := p
      obtain ⟨hk, hv⟩ := hgood (k, b) (by simp)
      have hnotin : k ∉ dictKeys acc := by
        intro hkin
        exact (List.nodup_append.mp hnd).2.2 hkin (by simp [dictKeys])
      have hnone : dictGet acc k = none := dictGet_eq_none_of_not_mem hnotin
      simp only [dictValues, List.map_cons]
      simp only [buildBooks, book_roundtrip_aux hv]
      have hfst : (Book.to_dict b).isbn = k := hk
      rw [hfst, dictSet_append b hnone]
      have hnd' : (dictKeys (acc ++ [(k, b)]) ++ dictKeys t).Nodup := by
        simpa [dictKeys, List.append_assoc] using hnd
      have hgood' : ∀ p ∈ t,
          (Prod.snd p).isbn = Prod.fst p ∧ validBook cy (Prod.snd p) :=
        fun p hp => hgood p (List.mem_cons_of_mem _ hp)
      have ih' := ih (acc ++ [(k, b)]) hnd' hgood'
      simp only [dictValues] at ih'
      rw [ih']
      simp

theorem buildMembers_roundtrip (l : List (String × Member)) :
    ∀ acc : List (String × Member),
    (dictKeys acc ++ dictKeys l).Nodup →
    (∀ p ∈ l, (Prod.snd p).member_id = Prod.fst p ∧ validMember (Prod.snd p)) →
    buildMembers ((dictValues l).map Member.to_dict) acc = .ok (acc ++ l) := by
  induction l with
  | nil =>
      intro acc hnd hgood
      simp [dictValues, buildMembers]
  | cons p t ih =>
      intro acc hnd hgood
      obtain ⟨k, m⟩ := p
      obtain ⟨hk, hv⟩ := hgood (k, m) (by simp)
      have hnotin : k ∉ dictKeys acc := by
        intro hkin
        exact (List.nodup_append.mp hnd).2.2 hkin (by simp [dictKeys])
      have hnone : dictGet acc k = none := dictGet_eq_none_of_not_mem hnotin
      simp only [dictValues, List.map_cons]
      simp only [buildMembers, member_roundtrip_aux hv]
      have hfst : (Member.to_dict m).member_id = k := hk
      rw [hfst, dictSet_append m hnone]
      have hnd' : (dictKeys (acc ++ [(k, m)]) ++ dictKeys t).Nodup := by
        simpa [dictKeys, List.append_assoc] using hnd
      have hgood' : ∀ p ∈ t,
          (Prod.snd p).member_id = Prod.fst p ∧ validMember (Prod.snd p) :=
        fun p hp => hgood p (List.mem_cons_of_mem _ hp)
      have ih' := ih (acc ++ [(k, m)]) hnd' hgood'
      simp only [dictValues] at ih'
      rw [ih']
      simp

/-- Claim C5: a transaction scope that exits normally commits by invoking
save(); a fresh load of the durable store afterwards yields exactly the
catalog's two mappings at commit time (so all books present before the
transaction plus every book added inside it). -/
theorem transaction_commit_persists (cy : Int) (lib lib1' : Library)
    (body : Library → Except LibError Unit × Library)
    (h : body lib = (.ok (), lib1')) (hg : GoodCatalog cy lib1') :
    lib.transaction body = (.ok (), lib1'.save) ∧
    load_data cy (Library.save lib1').booksFile (Library.save lib1').membersFile =
      .ok (lib1'.books, lib1'.members) := by
  obtain ⟨hnb, hnm, hgb, hgm⟩ := hg
  constructor
  · unfold Library.transaction
    rw [h]
  · have hbres := buildBooks_roundtrip cy lib1'.books []
      (by simpa [dictKeys] using hnb) hgb
    have hmres := buildMembers_roundtrip lib1'.members []
      (by simpa [dictKeys] using hnm) hgm
    simp only [dictValues, List.nil_append, List.map_map] at hbres hmres
    simp [Library.save, load_data, loadBooksFile, loadMembersFile,
      dictValues, hbres, hmres]

/-- Witness for C5: two books added inside a transaction on the fixture
catalog are all present in a fresh load of the saved store. -/
theorem transaction_commit_persists_witness :
    addTwoBody lib0 = (.ok (), addTwoResult) ∧
    GoodCatalog 2020 addTwoResult ∧
    lib0.transaction addTwoBody = (.ok (), addTwoResult.save) ∧
    load_data 2020 (Library.save addTwoResult).booksFile
        (Library.save addTwoResult).membersFile =
      .ok (addTwoResult.books, addTwoResult.members) :=
  ⟨by decide, by decide,
   (transaction_commit_persists 2020 lib0 addTwoResult addTwoBody
     (by decide) (by decide)).1,
   (transaction_commit_persists 2020 lib0 addTwoResult addTwoBody
     (by decide) (by decide)).2⟩

/-- Witness for C10 at a consistent two-entity catalog. -/
theorem consistency_preserved_witness :
    Consistent lib1 ∧
    Consistent (lib1.borrow_book "1234567890" "m1" 14 0).2 ∧
    Consistent (lib1.return_book "1234567890" "m1").2 := by
  have hcons : Consistent lib1 := by
    refine ⟨by decide, ?_, ?_⟩
    · intro p hp
      simp [lib1] at hp
      simp [hp, bk1]
    · intro p hp hav
      simp [lib1] at hp
      refine ⟨"m1", mem1, ?_, ?_, ?_⟩ <;> simp [hp, bk1, mem1, dictGet, lib1]
  exact ⟨hcons, (consistency_preserved lib1 "1234567890" "m1" 14 0 hcons).1,
    (consistency_preserved lib1 "1234567890" "m1" 14 0 hcons).2⟩

end LibSys
